import Mathlib

/-!
Verification of the ADE evidence pipeline.

Shallow embedding of the core functions of the pipeline:
 - scripts/normalize_terms.py : normalize_text, fuzzy_match
 - scripts/link_sider.py      : check_ade_consistency
 - scripts/clean_n2c2_normalized.py : the drug_norm/ade_norm resolution rule
 - scripts/filter_ades.py     : analyze_drug_patterns, should_keep_ade, filter_ades

Strings are modelled as Lean String (a list of characters); pandas NaN or
missing values are modelled as Option; Python float arithmetic on the small
ratios involved is modelled exactly over the rationals; Python dicts are
modelled as association lists looked up with alookup (first match wins,
matching the unique-key dicts the scripts build).
-/

namespace ADE

/-- Association-list lookup, modelling Python dict lookup and dict.get. -/
def alookup {α β : Type} [DecidableEq α] : α → List (α × β) → Option β
  | _, [] => none
  | a, (k, b) :: t => if a = k then some b else alookup a t

/-! Text Normalizer: scripts/normalize_terms.py, normalize_text (lines 29-38).
Python: lowercase, then remove the punctuation characters of the regex
character class (quote, apostrophe, period, comma, semicolon, colon,
exclamation mark, question mark, round/square/curly brackets), then strip
leading and trailing whitespace. -/

/-- Uppercase-to-lowercase ASCII table, modelling str.lower on the letters. -/
def ucPairs : List (Char × Char) :=
  [('A', 'a'), ('B', 'b'), ('C', 'c'), ('D', 'd'), ('E', 'e'), ('F', 'f'), ('G', 'g'),
   ('H', 'h'), ('I', 'i'), ('J', 'j'), ('K', 'k'), ('L', 'l'), ('M', 'm'), ('N', 'n'),
   ('O', 'o'), ('P', 'p'), ('Q', 'q'), ('R', 'r'), ('S', 's'), ('T', 't'), ('U', 'u'),
   ('V', 'v'), ('W', 'w'), ('X', 'x'), ('Y', 'y'), ('Z', 'z')]

/-- Lowercase one character (ASCII model of str.lower). -/
def lowerChar (c : Char) : Char := (alookup c ucPairs).getD c

/-- Whitespace characters removed by Python str.strip. -/
def isSpaceCh (c : Char) : Bool :=
  c == ' ' || c == '\t' || c == '\n' || c == '\r' || c == '\x0b' || c == '\x0c'

/-- Characters removed by the punctuation regex in normalize_text. -/
def isPunctCh (c : Char) : Bool :=
  c == '\x22' || c == '\x27' || c == '.' || c == ',' || c == ';' || c == ':' ||
  c == '!' || c == '?' || c == '(' || c == ')' || c == '[' || c == ']' ||
  c == '\x7b' || c == '\x7d'

/-- Drop the longest run of characters satisfying p from the front. -/
def dropW (p : Char → Bool) : List Char → List Char
  | [] => []
  | c :: t => if p c then dropW p t else c :: t

/-- Drop leading whitespace. -/
def dropSpaces (l : List Char) : List Char := dropW isSpaceCh l

/-- Python str.strip: drop leading and trailing whitespace. -/
def stripChars (l : List Char) : List Char :=
  (dropW isSpaceCh (dropSpaces l).reverse).reverse

/-- Character-list body of normalize_text: lower, remove punctuation, strip. -/
def normChars (l : List Char) : List Char :=
  stripChars ((l.map lowerChar).filter (fun c => !isPunctCh c))

/-- Embedding of normalize_text: a missing value (pandas NaN) yields the empty
string, otherwise lowercase, remove punctuation, strip. -/
def normalize_text : Option String → String
  | none => ""
  | some s => ⟨normChars s.data⟩

/-! Fuzzy Matcher: scripts/normalize_terms.py, fuzzy_match (lines 219-259).
The similarity backend (rapidfuzz / fuzzywuzzy WRatio) is external code, so it
is abstracted as a scorer parameter; both backend branches of the source run
the same logic over extractOne. The third branch is the degraded no-backend
fallback written out in the source. -/

/-- Which similarity backend was imported (rapidfuzz, fuzzywuzzy, or none). -/
inductive Backend
  | rapidfuzz
  | fuzzywuzzy
  | nofuzz
  deriving DecidableEq

/-- Model of process.extractOne: best-scoring choice, first one on ties. -/
def extractOne (scorer : String → String → Nat) (term : String) :
    List String → Option (String × Nat)
  | [] => none
  | c :: cs =>
    some (cs.foldl
      (fun best ch => if best.2 < scorer term ch then (ch, scorer term ch) else best)
      (c, scorer term c))

/-- Does the list a occur contiguously inside b (Python substring test)? -/
def startsWith : List Char → List Char → Bool
  | [], _ => true
  | _ :: _, [] => false
  | x :: xs, y :: ys => if x = y then startsWith xs ys else false

/-- Contiguous-sublist test used for the substring containment fallback. -/
def subList (a : List Char) : List Char → Bool
  | [] => a.isEmpty
  | c :: t => startsWith a (c :: t) || subList a t

/-- Python "a in b" on strings. -/
def containsSub (a b : String) : Bool := subList a.data b.data

/-- Embedding of fuzzy_match: term, reference dict, threshold; returns
(matched key, matched original, score). -/
def fuzzy_match (bk : Backend) (scorer : String → String → Nat) (term : String)
    (ref : List (String × String)) (threshold : Nat) : String × String × Nat :=
  if term = "" ∨ ref = [] then ("", "", 0)
  else
    match bk with
    | Backend.rapidfuzz =>
      match extractOne scorer term (ref.map (fun p => p.1)) with
      | none => ("", "", 0)
      | some (mn, score) =>
        if threshold ≤ score then (mn, (alookup mn ref).getD "", score)
        else ("", "", score)
    | Backend.fuzzywuzzy =>
      match extractOne scorer term (ref.map (fun p => p.1)) with
      | none => ("", "", 0)
      | some (mn, score) =>
        if threshold ≤ score then (mn, (alookup mn ref).getD "", score)
        else ("", "", score)
    | Backend.nofuzz =>
      match alookup term ref with
      | some orig => (term, orig, 100)
      | none =>
        match (ref.map (fun p => p.1)).find?
            (fun ch => containsSub term ch || containsSub ch term) with
        | some ch => (ch, (alookup ch ref).getD "", 80)
        | none => ("", "", 0)

/-! Consistency Checker: scripts/link_sider.py, check_ade_consistency
(lines 25-60). The SIDER table columns are lowercased and stripped, the
association set is the set of its (drug, ade) rows and the drug-key set is the
set of its drug entries; each n2c2 row is then tested against both sets. -/

/-- Column normalization used by link_sider: str.lower then str.strip. -/
def cNorm (s : String) : String := ⟨stripChars (s.data.map lowerChar)⟩

/-- Reference association pairs built from the SIDER table rows. -/
def sider_pairs (sider : List (String × String)) : List (String × String) :=
  sider.map (fun r => (cNorm r.1, cNorm r.2))

/-- Reference drug keys: the drug column of the SIDER table. -/
def sider_drug_keys (sider : List (String × String)) : List String :=
  (sider_pairs sider).map (fun p => p.1)

/-- Per-row body of the check loop: (is_consistent, sider_match_found). -/
def check_row (pairs : List (String × String)) (drugs : List String)
    (drug ade : String) : Bool × Bool :=
  if (drug, ade) ∈ pairs then (true, true) else (false, decide (drug ∈ drugs))

/-- Embedding of check_ade_consistency over the whole n2c2 table: each row is
normalized and flagged. -/
def check_ade_consistency (sider : List (String × String))
    (rows : List (String × String)) : List ((String × String) × Bool × Bool) :=
  rows.map (fun r =>
    ((cNorm r.1, cNorm r.2),
     check_row (sider_pairs sider) (sider_drug_keys sider) (cNorm r.1) (cNorm r.2)))

/-! Resolution rule: scripts/clean_n2c2_normalized.py (lines 17-22).
drug_norm is drug_matched when that is neither NaN nor the empty string, else
drug_normalized; same independently for ade_norm. -/

/-- One row of n2c2_normalized.csv as consumed by the cleaning script. -/
structure NormalizedRow where
  drug_normalized : String
  ade_normalized : String
  drug_matched : Option String
  ade_matched : Option String
  source_file : String
  deriving DecidableEq

/-- The matched-if-available-else-normalized resolution rule. -/
def resolveKey (matched : Option String) (normalized : String) : String :=
  match matched with
  | none => normalized
  | some m => if m = "" then normalized else m

/-- Embedding of the cleaning script body for one row: produces
(drug_norm, ade_norm, source_file). -/
def clean_row (r : NormalizedRow) : String × String × String :=
  (resolveKey r.drug_matched r.drug_normalized,
   resolveKey r.ade_matched r.ade_normalized,
   r.source_file)

/-! Pattern Aggregator and Confidence Scorer: scripts/filter_ades.py,
analyze_drug_patterns (lines 37-62), should_keep_ade (lines 65-107),
filter_ades (lines 110-146). -/

/-- One row of n2c2_with_sider_context.csv as consumed by filter_ades. -/
structure N2c2Row where
  drug_norm : String
  ade_norm : String
  is_consistent : Bool
  deriving DecidableEq

/-- Per-drug statistics accumulated by analyze_drug_patterns. -/
structure DrugStats where
  total_mentions : Nat
  ades : List (String × Nat)
  consistent_ades : List String
  sider_validated : Nat
  deriving DecidableEq

/-- Fresh defaultdict entry: all counters zero, empty collections. -/
def emptyStats : DrugStats := ⟨0, [], [], 0⟩

/-- Defaultdict(int) increment of the per-ADE counter. -/
def bump (m : List (String × Nat)) (k : String) : List (String × Nat) :=
  match m with
  | [] => [(k, 1)]
  | (k', v) :: t => if k' = k then (k', v + 1) :: t else (k', v) :: bump t k

/-- Python set.add on the consistent-ADE set. -/
def insertSet (s : List String) (x : String) : List String :=
  if x ∈ s then s else s ++ [x]

/-- Loop body of analyze_drug_patterns on one drug entry. -/
def updStats (row : N2c2Row) (s : DrugStats) : DrugStats :=
  { total_mentions := s.total_mentions + 1,
    ades := bump s.ades row.ade_norm,
    consistent_ades :=
      if row.is_consistent then insertSet s.consistent_ades row.ade_norm
      else s.consistent_ades,
    sider_validated :=
      if row.is_consistent then s.sider_validated + 1 else s.sider_validated }

/-- Defaultdict update of the drug_patterns map for one row. -/
def updAssoc (m : List (String × DrugStats)) (row : N2c2Row) :
    List (String × DrugStats) :=
  match m with
  | [] => [(row.drug_norm, updStats row emptyStats)]
  | (k, v) :: t =>
    if k = row.drug_norm then (k, updStats row v) :: t else (k, v) :: updAssoc t row

/-- Embedding of analyze_drug_patterns: one pass over the rows. -/
def analyze_drug_patterns (rows : List N2c2Row) : List (String × DrugStats) :=
  rows.foldl updAssoc []

/-- drug_patterns.get(drug, empty) followed by per-field .get defaults. -/
def getStats (patterns : List (String × DrugStats)) (d : String) : DrugStats :=
  (alookup d patterns).getD emptyStats

/-- Embedding of should_keep_ade: the priority-ordered decision cascade.
Ratios are computed over the rationals (exact model of the float divisions),
guarded exactly as in the source; core Rat operations are used so that the
decision evaluates inside the kernel. -/
def should_keep_ade (row : N2c2Row) (patterns : List (String × DrugStats))
    (sider_freqs : List ((String × String) × Int)) (min_freq : Int)
    (consistency_threshold : ℚ) : Bool × String :=
  let st := getStats patterns row.drug_norm
  let total := st.total_mentions
  let adeMentions := (alookup row.ade_norm st.ades).getD 0
  let mentionFrac : ℚ :=
    if 0 < total then Rat.divInt (adeMentions : Int) (total : Int) else 0
  let siderConsFrac : ℚ :=
    if 0 < total then Rat.divInt (st.sider_validated : Int) (total : Int) else 0
  let sider_freq : Int := (alookup (row.drug_norm, row.ade_norm) sider_freqs).getD 0
  if row.is_consistent = true ∧ min_freq ≤ sider_freq then
    (true, "high_confidence_sider")
  else if Rat.divInt 1 2 ≤ mentionFrac ∧ 2 ≤ adeMentions then
    (true, "strong_local_signal")
  else if consistency_threshold ≤ siderConsFrac ∧ 2 ≤ adeMentions then
    (true, "consistent_drug_pattern")
  else if 5 ≤ total ∧ Rat.divInt 3 10 ≤ mentionFrac then
    (true, "frequent_association")
  else
    (false, "insufficient_evidence")

/-- Embedding of filter_ades: aggregate once, then decide every mention. -/
def filter_ades (rows : List N2c2Row) (sider_freqs : List ((String × String) × Int))
    (min_freq : Int) (consistency_threshold : ℚ) : List (N2c2Row × Bool × String) :=
  let patterns := analyze_drug_patterns rows
  rows.map (fun r =>
    (r, should_keep_ade r patterns sider_freqs min_freq consistency_threshold))

/-- Sum of the per-ADE mention counters of a drug. -/
def sumCounts (m : List (String × Nat)) : Nat := (m.map (fun p => p.2)).sum

/-- Invariant of the per-drug statistics (used by the aggregator proof). -/
def statsInv (st : DrugStats) : Prop :=
  sumCounts st.ades = st.total_mentions ∧ st.sider_validated ≤ st.total_mentions

/-- Absence of a leading character satisfying p (used to state trimming). -/
def headOk (p : Char → Bool) (l : List Char) : Prop :=
  ∀ x, l.head? = some x → p x = false

/-! Helper lemmas. -/

theorem alookup_mem {α β : Type} [DecidableEq α] (k : α) (l : List (α × β)) (v : β)
    (h : alookup k l = some v) : (k, v) ∈ l := by
  induction l with
  | nil => simp [alookup] at h
  | cons p t ih =>
    obtain ⟨k', v'⟩ := p
    by_cases hk : k = k'
    · subst hk
      simp [alookup] at h
      simp [h]
    · simp [alookup, hk] at h
      exact List.mem_cons_of_mem _ (ih h)

theorem ucPairs_snd : ∀ p ∈ ucPairs, alookup p.2 ucPairs = none := by decide

theorem lowerChar_idem (c : Char) : lowerChar (lowerChar c) = lowerChar c := by
  unfold lowerChar
  cases h : alookup c ucPairs with
  | none => simp [h]
  | some v =>
    have hv : (c, v) ∈ ucPairs := alookup_mem c ucPairs v h
    have hn : alookup v ucPairs = none := ucPairs_snd (c, v) hv
    simp [h, hn]

theorem dw_head (p : Char → Bool) (l : List Char) : headOk p (dropW p l) := by
  induction l with
  | nil => intro x hx; simp [dropW] at hx
  | cons c t ih =>
    by_cases hc : p c = true
    · intro x hx
      rw [show dropW p (c :: t) = dropW p t by simp [dropW, hc]] at hx
      exact ih x hx
    · intro x hx
      rw [show dropW p (c :: t) = c :: t by simp [dropW, hc]] at hx
      simp at hx
      rw [← hx]
      simpa using hc

theorem dw_self (p : Char → Bool) (l : List Char) (h : headOk p l) : dropW p l = l := by
  cases l with
  | nil => rfl
  | cons c t =>
    have hc := h c rfl
    simp [dropW, hc]

theorem head_append (l l' : List Char) (x : Char) (h : l.head? = some x) :
    (l ++ l').head? = some x := by
  cases l with
  | nil => simp at h
  | cons c t => simpa using h

theorem rdw_head (p : Char → Bool) (m : List Char) (x : Char)
    (h : (dropW p m).reverse.head? = some x) : m.reverse.head? = some x := by
  induction m with
  | nil => simp [dropW] at h
  | cons c t ih =>
    by_cases hc : p c = true
    · rw [show dropW p (c :: t) = dropW p t by simp [dropW, hc]] at h
      have ht := ih h
      rw [List.reverse_cons]
      exact head_append _ _ _ ht
    · rw [show dropW p (c :: t) = c :: t by simp [dropW, hc]] at h
      exact h

theorem strip_headOk_left (l : List Char) : headOk isSpaceCh (stripChars l) := by
  intro x hx
  have h1 : (dropSpaces l).reverse.reverse.head? = some x :=
    rdw_head isSpaceCh (dropSpaces l).reverse x hx
  rw [List.reverse_reverse] at h1
  exact dw_head isSpaceCh l x h1

theorem strip_headOk_right (l : List Char) : headOk isSpaceCh (stripChars l).reverse := by
  intro x hx
  rw [stripChars, List.reverse_reverse] at hx
  exact dw_head isSpaceCh (dropSpaces l).reverse x hx

theorem strip_idem (l : List Char) : stripChars (stripChars l) = stripChars l := by
  have h1 : dropSpaces (stripChars l) = stripChars l :=
    dw_self isSpaceCh (stripChars l) (strip_headOk_left l)
  have h2 : dropW isSpaceCh (stripChars l).reverse = (stripChars l).reverse :=
    dw_self isSpaceCh (stripChars l).reverse (strip_headOk_right l)
  show (dropW isSpaceCh (dropSpaces (stripChars l)).reverse).reverse = stripChars l
  rw [h1, h2, List.reverse_reverse]

theorem mem_dropW (p : Char → Bool) (l : List Char) (x : Char) (h : x ∈ dropW p l) :
    x ∈ l := by
  induction l with
  | nil => simp [dropW] at h
  | cons c t ih =>
    by_cases hc : p c = true
    · rw [show dropW p (c :: t) = dropW p t by simp [dropW, hc]] at h
      exact List.mem_cons_of_mem _ (ih h)
    · rw [show dropW p (c :: t) = c :: t by simp [dropW, hc]] at h
      exact h

theorem mem_strip (l : List Char) (x : Char) (h : x ∈ stripChars l) : x ∈ l := by
  rw [stripChars] at h
  have h1 := (List.mem_reverse).1 h
  have h2 := mem_dropW _ _ _ h1
  have h3 := (List.mem_reverse).1 h2
  exact mem_dropW _ _ _ h3

theorem map_self_of (f : Char → Char) (l : List Char) (h : ∀ x ∈ l, f x = x) :
    l.map f = l := by
  induction l with
  | nil => rfl
  | cons c t ih =>
    simp only [List.map_cons]
    rw [h c (by simp), ih (fun x hx => h x (by simp [hx]))]

theorem filter_self_of (q : Char → Bool) (l : List Char) (h : ∀ x ∈ l, q x = true) :
    l.filter q = l := by
  induction l with
  | nil => rfl
  | cons c t ih =>
    rw [List.filter_cons]
    simp [h c (by simp), ih (fun x hx => h x (by simp [hx]))]

theorem normChars_idem (l : List Char) : normChars (normChars l) = normChars l := by
  have hmap : (normChars l).map lowerChar = normChars l := by
    apply map_self_of
    intro x hx
    have h1 := mem_strip _ _ hx
    have h2 := (List.mem_filter.1 h1).1
    obtain ⟨c, _, hc⟩ := List.mem_map.1 h2
    rw [← hc]
    exact lowerChar_idem c
  have hfil : (normChars l).filter (fun c => !isPunctCh c) = normChars l := by
    apply filter_self_of
    intro x hx
    have h1 := mem_strip _ _ hx
    exact (List.mem_filter.1 h1).2
  show stripChars (((normChars l).map lowerChar).filter (fun c => !isPunctCh c)) =
    normChars l
  rw [hmap, hfil]
  show stripChars (stripChars _) = stripChars _
  exact strip_idem _

/-! Claim theorems. -/

/-- C6: the Text Normalizer is idempotent — normalize(normalize(x)) equals
normalize(x) for every input — and normalizing a missing value yields the
empty string rather than an error. -/
theorem normalize_text_idem (x : Option String) :
    normalize_text (some (normalize_text x)) = normalize_text x ∧
      normalize_text none = "" := by
  constructor
  · cases x with
    | none =>
      show normalize_text (some "") = ""
      rfl
    | some s =>
      show (⟨normChars (normChars s.data)⟩ : String) = ⟨normChars s.data⟩
      rw [normChars_idem]
  · rfl

/-- C9 counterexample: the Text Normalizer does not collapse runs of internal
whitespace — the two consecutive spaces inside the raw text survive
normalization unchanged. -/
theorem normalize_no_collapse :
    normalize_text (some "a  b") = "a  b" ∧ ("a  b" : String) ≠ "a b" := by
  constructor
  · rfl
  · decide

/-- C9 amended: the Text Normalizer trims leading and trailing whitespace when
producing a comparison key (in addition to lowercasing and punctuation
stripping), but it does not collapse internal whitespace runs. -/
theorem normalize_text_trims (s : String) :
    headOk isSpaceCh (normalize_text (some s)).data ∧
      headOk isSpaceCh (normalize_text (some s)).data.reverse := by
  constructor
  · exact strip_headOk_left _
  · exact strip_headOk_right _

theorem normalize_text_trims_wit : isSpaceCh 'a' = false :=
  (normalize_text_trims " a ").1 'a' (by decide)

/-- C3 counterexample: in the degraded no-backend fallback the threshold is
ignored — with threshold 85 the substring containment branch still returns the
matched key with score 80. -/
theorem fuzzy_fallback_below_threshold :
    (fuzzy_match Backend.nofuzz (fun _ _ => 0) "ab" [("abc", "Abc")] 85).1 ≠ "" ∧
      (fuzzy_match Backend.nofuzz (fun _ _ => 0) "ab" [("abc", "Abc")] 85).2.2 < 85 := by
  decide

/-- C3 amended: whenever the Fuzzy Matcher returns a non-empty matched key,
the score alongside it is at least the threshold, provided a similarity
backend is available; the degraded fallback ignores the threshold (non-empty
matches carry score 100 or 80), so in that mode the guarantee holds exactly
when the threshold is at most 80. -/
theorem fuzzy_match_score_ge (bk : Backend) (scorer : String → String → Nat)
    (term : String) (ref : List (String × String)) (threshold : Nat)
    (hok : threshold ≤ 80 ∨ bk ≠ Backend.nofuzz)
    (hne : (fuzzy_match bk scorer term ref threshold).1 ≠ "") :
    threshold ≤ (fuzzy_match bk scorer term ref threshold).2.2 := by
  unfold fuzzy_match at hne ⊢
  by_cases h0 : term = "" ∨ ref = []
  · rw [if_pos h0] at hne
    exact absurd rfl hne
  · rw [if_neg h0] at hne ⊢
    cases bk with
    | rapidfuzz =>
      cases hE : extractOne scorer term (ref.map (fun p => p.1)) with
      | none =>
        rw [hE] at hne
        exact absurd rfl hne
      | some pr =>
        obtain ⟨mn, score⟩ := pr
        rw [hE] at hne
        dsimp only at hne
        dsimp only
        by_cases hs : threshold ≤ score
        · rw [if_pos hs]
          exact hs
        · rw [if_neg hs] at hne
          exact absurd rfl hne
    | fuzzywuzzy =>
      cases hE : extractOne scorer term (ref.map (fun p => p.1)) with
      | none =>
        rw [hE] at hne
        exact absurd rfl hne
      | some pr =>
        obtain ⟨mn, score⟩ := pr
        rw [hE] at hne
        dsimp only at hne
        dsimp only
        by_cases hs : threshold ≤ score
        · rw [if_pos hs]
          exact hs
        · rw [if_neg hs] at hne
          exact absurd rfl hne
    | nofuzz =>
      rcases hok with hok | hok
      · cases hL : alookup term ref with
        | some orig =>
          show threshold ≤ 100
          omega
        | none =>
          rw [hL] at hne
          dsimp only at hne
          cases hF : (ref.map (fun p => p.1)).find?
              (fun ch => containsSub term ch || containsSub ch term) with
          | some ch =>
            show threshold ≤ 80
            exact hok
          | none =>
            rw [hF] at hne
            exact absurd rfl hne
      · exact absurd rfl hok

theorem fuzzy_match_score_ge_wit :
    85 ≤ (fuzzy_match Backend.rapidfuzz (fun _ _ => 90) "x" [("y", "Y")] 85).2.2 :=
  fuzzy_match_score_ge Backend.rapidfuzz (fun _ _ => 90) "x" [("y", "Y")] 85
    (Or.inr (by decide)) (by decide)

/-- C2: for every mention, is_consistent is true iff the resolved (drug, ADE)
pair is in the reference association set, and sider_match_found is true iff
the resolved drug key is among the reference drug keys, independently of the
ADE. -/
theorem check_consistency_iff (sider : List (String × String)) (drug ade : String) :
    ((check_row (sider_pairs sider) (sider_drug_keys sider) drug ade).1 = true ↔
        (drug, ade) ∈ sider_pairs sider) ∧
      ((check_row (sider_pairs sider) (sider_drug_keys sider) drug ade).2 = true ↔
        drug ∈ sider_drug_keys sider) := by
  unfold check_row
  by_cases hp : (drug, ade) ∈ sider_pairs sider
  · rw [if_pos hp]
    constructor
    · simp [hp]
    · simp only [true_iff]
      have := List.mem_map_of_mem (fun p => (p : String × String).1) hp
      simpa [sider_drug_keys] using this
  · rw [if_neg hp]
    constructor
    · simp [hp]
    · simp

/-- C10: a mention can never be marked consistent with the reference while its
drug is marked absent from the reference: is_consistent implies
sider_match_found. -/
theorem check_consistent_implies_found (sider : List (String × String))
    (drug ade : String)
    (h : (check_row (sider_pairs sider) (sider_drug_keys sider) drug ade).1 = true) :
    (check_row (sider_pairs sider) (sider_drug_keys sider) drug ade).2 = true := by
  unfold check_row at h ⊢
  by_cases hp : (drug, ade) ∈ sider_pairs sider
  · rw [if_pos hp]
  · rw [if_neg hp] at h
    simp at h

theorem check_consistent_implies_found_wit :
    (check_row (sider_pairs [("Aspirin", "Nausea ")])
        (sider_drug_keys [("Aspirin", "Nausea ")]) "aspirin" "nausea").2 = true :=
  check_consistent_implies_found [("Aspirin", "Nausea ")] "aspirin" "nausea" (by decide)

theorem bump_sum (m : List (String × Nat)) (k : String) :
    sumCounts (bump m k) = sumCounts m + 1 := by
  induction m with
  | nil => rfl
  | cons p t ih =>
    obtain ⟨k', v⟩ := p
    by_cases hk : k' = k
    · simp [bump, hk, sumCounts]
      omega
    · simp only [bump, if_neg hk]
      simp [sumCounts] at ih ⊢
      omega

theorem emptyStats_inv : statsInv emptyStats := by
  constructor <;> rfl

theorem updStats_inv (row : N2c2Row) (s : DrugStats) (h : statsInv s) :
    statsInv (updStats row s) := by
  obtain ⟨h1, h2⟩ := h
  constructor
  · show sumCounts (bump s.ades row.ade_norm) = s.total_mentions + 1
    rw [bump_sum, h1]
  · show (if row.is_consistent then s.sider_validated + 1 else s.sider_validated) ≤
      s.total_mentions + 1
    by_cases hc : row.is_consistent <;> simp [hc] <;> omega

theorem updAssoc_inv (m : List (String × DrugStats)) (row : N2c2Row)
    (hm : ∀ p ∈ m, statsInv p.2) : ∀ p ∈ updAssoc m row, statsInv p.2 := by
  induction m with
  | nil =>
    intro p hp
    simp [updAssoc] at hp
    rw [hp]
    exact updStats_inv row emptyStats emptyStats_inv
  | cons q t ih =>
    intro p hp
    obtain ⟨k, v⟩ := q
    by_cases hk : k = row.drug_norm
    · rw [show updAssoc ((k, v) :: t) row = (k, updStats row v) :: t by
        simp [updAssoc, hk]] at hp
      rcases List.mem_cons.1 hp with hp | hp
      · rw [hp]
        exact updStats_inv row v (hm (k, v) (by simp))
      · exact hm p (List.mem_cons_of_mem _ hp)
    · rw [show updAssoc ((k, v) :: t) row = (k, v) :: updAssoc t row by
        simp [updAssoc, hk]] at hp
      rcases List.mem_cons.1 hp with hp | hp
      · rw [hp]
        exact hm (k, v) (by simp)
      · exact ih (fun p hp => hm p (List.mem_cons_of_mem _ hp)) p hp

/-- C4: for every input sequence and every drug entry of the Pattern
Aggregator output, the per-ADE mention counts sum to the total mention count,
and the reference-validated count is at most the total mention count. -/
theorem analyze_patterns_inv (rows : List N2c2Row) (d : String) (st : DrugStats)
    (h : (d, st) ∈ analyze_drug_patterns rows) :
    sumCounts st.ades = st.total_mentions ∧
      st.sider_validated ≤ st.total_mentions := by
  have main : ∀ (rs : List N2c2Row) (m : List (String × DrugStats)),
      (∀ p ∈ m, statsInv p.2) → ∀ p ∈ rs.foldl updAssoc m, statsInv p.2 := by
    intro rs
    induction rs with
    | nil => intro m hm p hp; exact hm p hp
    | cons r t ih =>
      intro m hm p hp
      exact ih (updAssoc m r) (updAssoc_inv m r hm) p hp
  exact main rows [] (by intro p hp; simp at hp) (d, st) h

theorem analyze_patterns_inv_wit :
    sumCounts (⟨1, [("nausea", 1)], ["nausea"], 1⟩ : DrugStats).ades =
        (⟨1, [("nausea", 1)], ["nausea"], 1⟩ : DrugStats).total_mentions ∧
      (⟨1, [("nausea", 1)], ["nausea"], 1⟩ : DrugStats).sider_validated ≤
        (⟨1, [("nausea", 1)], ["nausea"], 1⟩ : DrugStats).total_mentions :=
  analyze_patterns_inv [⟨"aspirin", "nausea", true⟩] "aspirin"
    ⟨1, [("nausea", 1)], ["nausea"], 1⟩ (by decide)

/-- C5: the resolved lookup identity equals the fuzzy-matched key when that is
present (non-null and non-empty), and otherwise equals the raw normalized key;
the rule is applied independently to the drug side and the ADE side. -/
theorem clean_row_resolution (r : NormalizedRow) :
    ((∀ v, r.drug_matched = some v → v ≠ "" → (clean_row r).1 = v) ∧
        ((r.drug_matched = none ∨ r.drug_matched = some "") →
          (clean_row r).1 = r.drug_normalized)) ∧
      ((∀ v, r.ade_matched = some v → v ≠ "" → (clean_row r).2.1 = v) ∧
        ((r.ade_matched = none ∨ r.ade_matched = some "") →
          (clean_row r).2.1 = r.ade_normalized)) := by
  unfold clean_row resolveKey
  refine ⟨⟨?_, ?_⟩, ?_, ?_⟩
  · intro v hv hne
    rw [hv]
    simp [hne]
  · intro hv
    rcases hv with hv | hv <;> simp [hv]
  · intro v hv hne
    rw [hv]
    simp [hne]
  · intro hv
    rcases hv with hv | hv <;> simp [hv]

theorem clean_row_resolution_wit :
    (clean_row ⟨"asp", "naus", some "aspirin", none, "f1"⟩).1 = "aspirin" ∧
      (clean_row ⟨"asp", "naus", some "aspirin", none, "f1"⟩).2.1 = "naus" :=
  ⟨(clean_row_resolution ⟨"asp", "naus", some "aspirin", none, "f1"⟩).1.1
      "aspirin" rfl (by decide),
   (clean_row_resolution ⟨"asp", "naus", some "aspirin", none, "f1"⟩).2.2
      (Or.inl rfl)⟩

/-- C1 counterexample: the end-to-end scenario A input (10 aspirin mentions,
6 of them nausea, is_consistent true, reference frequency 3, min_freq 2) is
kept, but the reason string the code produces is high_confidence_sider, not
high_confidence_reference. -/
theorem high_confidence_reason_cx :
    should_keep_ade ⟨"aspirin", "nausea", true⟩
        (analyze_drug_patterns
          [⟨"aspirin", "nausea", true⟩, ⟨"aspirin", "nausea", true⟩,
           ⟨"aspirin", "nausea", true⟩, ⟨"aspirin", "nausea", true⟩,
           ⟨"aspirin", "nausea", true⟩, ⟨"aspirin", "nausea", true⟩,
           ⟨"aspirin", "headache", false⟩, ⟨"aspirin", "headache", false⟩,
           ⟨"aspirin", "dizziness", false⟩, ⟨"aspirin", "rash", false⟩])
        [(("aspirin", "nausea"), 3)] 2 (Rat.divInt 2 5) ≠
      (true, "high_confidence_reference") := by
  decide

/-- C1 amended: for a mention with is_consistent true whose (drug, ADE) pair
has reference frequency at least min_freq, the Confidence Scorer returns
kept = true with reason exactly high_confidence_sider (the code name of the
rule the claim calls high_confidence_reference). -/
theorem high_confidence_rule (row : N2c2Row) (patterns : List (String × DrugStats))
    (freqs : List ((String × String) × Int)) (mf : Int) (ct : ℚ)
    (h1 : row.is_consistent = true)
    (h2 : mf ≤ (alookup (row.drug_norm, row.ade_norm) freqs).getD 0) :
    should_keep_ade row patterns freqs mf ct = (true, "high_confidence_sider") := by
  unfold should_keep_ade
  rw [if_pos ⟨h1, h2⟩]

theorem high_confidence_rule_wit :
    should_keep_ade ⟨"aspirin", "nausea", true⟩
        (analyze_drug_patterns
          [⟨"aspirin", "nausea", true⟩, ⟨"aspirin", "nausea", true⟩,
           ⟨"aspirin", "nausea", true⟩, ⟨"aspirin", "nausea", true⟩,
           ⟨"aspirin", "nausea", true⟩, ⟨"aspirin", "nausea", true⟩,
           ⟨"aspirin", "headache", false⟩, ⟨"aspirin", "headache", false⟩,
           ⟨"aspirin", "dizziness", false⟩, ⟨"aspirin", "rash", false⟩])
        [(("aspirin", "nausea"), 3)] 2 (Rat.divInt 2 5) = (true, "high_confidence_sider") :=
  high_confidence_rule _ _ _ _ _ rfl (by decide)

/-- C7 counterexample: with a negative min_freq (-5) and a consistency
threshold outside the unit interval (3/2), the pipeline does not surface any
configuration error: it processes the mention and produces a decision, and
the raw negative min_freq is used as supplied (frequency -3 passes the
min_freq -5 test, which no clamped value would allow). -/
theorem config_not_validated_cx :
    filter_ades [⟨"d", "a", true⟩] [(("d", "a"), -3)] (-5) (Rat.divInt 3 2) =
      [(⟨"d", "a", true⟩, true, "high_confidence_sider")] := by
  decide

/-- C7 amended: the pipeline performs no validation of the caller-supplied
configuration: out-of-range min_freq or consistency-threshold values are
neither rejected nor clamped, and filtering processes every mention and
returns a decision for each one regardless of the configuration values. -/
theorem filter_ades_total (rows : List N2c2Row)
    (freqs : List ((String × String) × Int)) (mf : Int) (ct : ℚ) :
    (filter_ades rows freqs mf ct).length = rows.length := by
  unfold filter_ades
  simp

/-- C8: the Confidence Scorer decision is total even for a drug absent from
the pattern map: no division is attempted, both ratios default to 0, and the
decision reduces to the reference-frequency rule or insufficient_evidence. -/
theorem should_keep_total_on_absent (row : N2c2Row)
    (patterns : List (String × DrugStats))
    (freqs : List ((String × String) × Int)) (mf : Int) (ct : ℚ)
    (h : alookup row.drug_norm patterns = none) :
    should_keep_ade row patterns freqs mf ct =
      if row.is_consistent = true ∧
          mf ≤ (alookup (row.drug_norm, row.ade_norm) freqs).getD 0 then
        (true, "high_confidence_sider")
      else (false, "insufficient_evidence") := by
  unfold should_keep_ade getStats
  rw [h]
  by_cases hc : row.is_consistent = true ∧
      mf ≤ (alookup (row.drug_norm, row.ade_norm) freqs).getD 0
  · rw [if_pos hc, if_pos hc]
  · rw [if_neg hc, if_neg hc]
    simp [emptyStats, alookup]

theorem should_keep_total_on_absent_wit :
    should_keep_ade ⟨"x", "y", false⟩ [] [] 2 (Rat.divInt 2 5) =
      (false, "insufficient_evidence") := by
  rw [should_keep_total_on_absent ⟨"x", "y", false⟩ [] [] 2 (Rat.divInt 2 5) rfl]
  decide

end ADE
